import Mathlib

/-!
Verification of the numerology derivation engine of `app.py` (taicai-bot).

The Python source is shallowly embedded below.  Pure arithmetic functions
become Lean functions over `Nat`; the two reads of `datetime.now` in the
fixed UTC+8 zone (`calculate_pd` and `get_lucky_numbers`) are modelled by an
explicit `RefDate` parameter holding the civil date obtained from that read.

The two loops of the source (`while n > 9 and n not in [11, 22, 33]` in
`calculate_single_digit`, and the digit traversal of `str(n)`) are embedded
with an explicit fuel argument so that every definition is structurally
recursive and kernel-evaluable.  `n` units of fuel always suffice: each
iteration strictly decreases the current value (`digitSum_lt` below), and the
theorems `csdAux_congr`, `csd_eval_step` and `csd_eval_done` prove that the
embedding satisfies exactly the defining equations of the Python loop.
-/

namespace TaicaiBot

/-- Digit sum of the decimal representation of `n`, embedding the Python
expression `sum(int(d) for d in str(n))`; `digitSumAux f n` computes the
digit sum whenever `n < f`. -/
def digitSumAux : Nat → Nat → Nat
  | 0, _ => 0
  | f + 1, n => if n = 0 then 0 else n % 10 + digitSumAux f (n / 10)

def digitSum (n : Nat) : Nat := digitSumAux (n + 1) n

/-- One loop iteration: `csdAux f n` runs
`while n > 9 and n not in [11, 22, 33]: n = digitSum n` for at most `f`
iterations. -/
def csdAux : Nat → Nat → Nat
  | 0, n => n
  | f + 1, n =>
    if 9 < n ∧ ¬(n = 11 ∨ n = 22 ∨ n = 33) then csdAux f (digitSum n) else n

/-- Embeds `calculate_single_digit` (app.py, lines 37-40): repeatedly replace
`n` by its decimal digit sum while `n > 9` and `n` is not a master number
(11, 22 or 33).  `n` units of fuel suffice because each iteration strictly
decreases the value (theorem `digitSum_lt`); theorems `csd_eval_step` and
`csd_eval_done` recover the loop equations. -/
def calculate_single_digit (n : Nat) : Nat := csdAux n n

/-- The civil date read from `datetime.now(timezone(timedelta(hours=8)))`;
the code reads it inside `calculate_pd` and `get_lucky_numbers`, modelled
here as an explicit parameter. -/
structure RefDate where
  year : Nat
  month : Nat
  day : Nat

/-- Embeds `calculate_lp` (app.py, lines 42-44): digit sums of year, month
and day added, then reduced. -/
def calculate_lp (year month day : Nat) : Nat :=
  calculate_single_digit (digitSum year + digitSum month + digitSum day)

/-- Embeds `calculate_pd` (app.py, lines 46-51). -/
def calculate_pd (month day : Nat) (now : RefDate) : Nat :=
  calculate_single_digit
    (digitSum month + digitSum day +
      digitSum now.year + digitSum now.month + digitSum now.day)

/-- Embeds `lp if lp < 10 else sum(int(d) for d in str(lp))` from
`get_lucky_numbers` (app.py, lines 57-58). -/
def single_collapse (x : Nat) : Nat := if x < 10 then x else digitSum x

/-- Embeds the seed formula of `get_lucky_numbers` (app.py, line 60). -/
def lucky_seed (lp pd day nowDay : Nat) : Nat :=
  (single_collapse lp * single_collapse pd * (day + nowDay)) % 100

/-- Embeds the raw candidates `n1, n2, n3` (app.py, lines 62-64). -/
def lucky_candidates (seed : Nat) : Nat × Nat × Nat :=
  (seed % 50, (seed + 15) % 50, (seed + 33) % 50)

/-- Embeds `if num == 0: num = 1` (app.py, line 70). -/
def zero_avoid (num : Nat) : Nat := if num = 0 then 1 else num

/-- Embeds the Python format expression of app.py line 71 (`num` rendered in
decimal, zero-padded on the left to width 2). -/
def fmt2 (num : Nat) : String :=
  if num < 10 then "0" ++ Nat.repr num else Nat.repr num

/-- Embeds `get_lucky_numbers` (app.py, lines 53-73); `nowDay` is the day
field of the UTC+8 "now" read at line 55. -/
def get_lucky_numbers (lp pd day nowDay : Nat) : List String :=
  let seed := lucky_seed lp pd day nowDay
  let c := lucky_candidates seed
  [c.1, c.2.1, c.2.2].map (fun num => fmt2 (zero_avoid num))

/-- The structured numerology output assembled in `handle_message`
(app.py, lines 405-407). -/
structure NumerologyResult where
  lp : Nat
  pd : Nat
  luckyCodes : List String
deriving DecidableEq

/-- The composition of the three computation calls of the birthday branch of
`handle_message` (app.py, lines 405-407). -/
def compute_result (year month day : Nat) (now : RefDate) : NumerologyResult :=
  let lp := calculate_lp year month day
  let pd := calculate_pd month day now
  ⟨lp, pd, get_lucky_numbers lp pd day now.day⟩

/-- Models the digit character class of the regex at app.py line 397
(restricted to ASCII decimal digits). -/
def isDigitChar (c : Char) : Bool := c.isDigit

def isSep (c : Char) : Bool := c == '-' || c == '/'

/-- Embeds the anchored regex match at app.py line 397: four digits in
group 1, a separator (dash or slash), one or two digits in group 2, a
separator, one or two digits in group 3, end of string.  Returns the three
captured groups on success.  Taking the maximal run of digits for each
group is equivalent to the regex: each digit quantifier is followed by a
separator class or by the end of the string, and a digit can satisfy
neither, so backtracking to a shorter digit run can never turn a failure
into a match. -/
def matchDate (cs : List Char) : Option (List Char × List Char × List Char) :=
  let g1 := cs.takeWhile isDigitChar
  match cs.dropWhile isDigitChar with
  | c1 :: r2 =>
    let g2 := r2.takeWhile isDigitChar
    match r2.dropWhile isDigitChar with
    | c2 :: r4 =>
      let g3 := r4.takeWhile isDigitChar
      if g1.length = 4 ∧ isSep c1 = true ∧
          1 ≤ g2.length ∧ g2.length ≤ 2 ∧ isSep c2 = true ∧
          1 ≤ g3.length ∧ g3.length ≤ 2 ∧ r4.dropWhile isDigitChar = [] then
        some (g1, g2, g3)
      else none
    | [] => none
  | [] => none

def digitVal (c : Char) : Nat := c.toNat - 48

/-- Models Python `int(...)` applied to a regex capture group: it succeeds
exactly on a non-empty string of decimal digits (the only shape a group of
this regex can have) and yields its decimal value; on any other input
`int` raises `ValueError`, modelled as `none`. -/
def parseIntDigits (cs : List Char) : Option Nat :=
  if cs ≠ [] ∧ cs.all isDigitChar = true then
    some (cs.foldl (fun acc c => 10 * acc + digitVal c) 0)
  else none

/-- Embeds the body of the `try:` block of the birthday branch of
`handle_message` (app.py, lines 400-427): the three `int(...)` calls
followed by the numerology computation.  A `ValueError` from any of them
would be answered by the `except ValueError:` reply, modelled as
`Except.error` with that reply text. -/
def handle_birthdate (g1 g2 g3 : List Char) (now : RefDate) :
    Except String NumerologyResult :=
  match parseIntDigits g1, parseIntDigits g2, parseIntDigits g3 with
  | some y, some m, some d => Except.ok (compute_result y m d now)
  | _, _, _ => Except.error ("日期無效，請檢查月份或日期。")

/-- Embeds the date branch of `handle_message` (app.py, lines 397-427):
`none` means the text did not match the regex and the handler falls
through to the help reply. -/
def handle_text (s : String) (now : RefDate) :
    Option (Except String NumerologyResult) :=
  match matchDate s.toList with
  | some (g1, g2, g3) => some (handle_birthdate g1 g2 g3 now)
  | none => none

theorem digitSumAux_congr :
    ∀ f₁ f₂ n : Nat, n < f₁ → n < f₂ → digitSumAux f₁ n = digitSumAux f₂ n := by
  intro f₁
  induction f₁ with
  | zero => intro f₂ n h₁ _; omega
  | succ f ih =>
    intro f₂ n h₁ h₂
    cases f₂ with
    | zero => omega
    | succ g =>
      by_cases hn : n = 0
      · simp [digitSumAux, hn]
      · have hd : n / 10 < n := Nat.div_lt_self (by omega) (by omega)
        simp only [digitSumAux, if_neg hn]
        rw [ih g (n / 10) (by omega) (by omega)]

/-- Unfolding equation for `digitSum` on positive input. -/
theorem digitSum_def {n : Nat} (h : 0 < n) :
    digitSum n = n % 10 + digitSum (n / 10) := by
  have hd : n / 10 < n := Nat.div_lt_self h (by omega)
  show digitSumAux (n + 1) n = n % 10 + digitSum (n / 10)
  have h1 : digitSumAux (n + 1) n =
      if n = 0 then 0 else n % 10 + digitSumAux n (n / 10) := rfl
  rw [h1, if_neg (by omega : ¬ n = 0)]
  unfold digitSum
  rw [digitSumAux_congr n (n / 10 + 1) (n / 10) (by omega) (by omega)]

theorem digitSum_le : ∀ n : Nat, digitSum n ≤ n := by
  intro n
  induction n using Nat.strong_induction_on with
  | _ n ih =>
    by_cases h : n = 0
    · subst h; exact Nat.le_refl 0
    · have hd : n / 10 < n := Nat.div_lt_self (by omega) (by omega)
      have hrec := ih (n / 10) hd
      rw [digitSum_def (by omega)]
      omega

/-- For `n > 9` the decimal digit sum strictly decreases; this is the
termination measure of the reduction loop in `calculate_single_digit`. -/
theorem digitSum_lt {n : Nat} (h : 9 < n) : digitSum n < n := by
  have hd : n / 10 < n := Nat.div_lt_self (by omega) (by omega)
  have hrec := digitSum_le (n / 10)
  rw [digitSum_def (by omega)]
  omega

theorem digitSum_pos : ∀ n : Nat, 0 < n → 0 < digitSum n := by
  intro n
  induction n using Nat.strong_induction_on with
  | _ n ih =>
    intro hn
    rw [digitSum_def hn]
    by_cases h : n % 10 = 0
    · have h10 : 10 ≤ n := by omega
      have hd : n / 10 < n := Nat.div_lt_self hn (by omega)
      have := ih (n / 10) hd (by omega)
      omega
    · omega

/-- The fuel argument of `csdAux` is irrelevant as long as it dominates the
start value: each iteration strictly decreases the value, so at most `n`
iterations ever run. -/
theorem csdAux_congr :
    ∀ f₁ f₂ n : Nat, n ≤ f₁ → n ≤ f₂ → csdAux f₁ n = csdAux f₂ n := by
  intro f₁
  induction f₁ with
  | zero =>
    intro f₂ n h₁ _
    have hn : n = 0 := by omega
    subst hn
    cases f₂ with
    | zero => rfl
    | succ g => simp [csdAux]
  | succ f ih =>
    intro f₂ n h₁ h₂
    cases f₂ with
    | zero =>
      have hn : n = 0 := by omega
      subst hn
      simp [csdAux]
    | succ g =>
      by_cases h : 9 < n ∧ ¬(n = 11 ∨ n = 22 ∨ n = 33)
      · have hlt : digitSum n < n := digitSum_lt h.1
        simp only [csdAux, if_pos h]
        exact ih g (digitSum n) (by omega) (by omega)
      · simp only [csdAux, if_neg h]

/-- Loop equation of `calculate_single_digit` when the `while` condition
holds: one more digit-sum step is taken. -/
theorem csd_eval_step (n : Nat) (h : 9 < n ∧ ¬(n = 11 ∨ n = 22 ∨ n = 33)) :
    calculate_single_digit n = calculate_single_digit (digitSum n) := by
  have hlt : digitSum n < n := digitSum_lt h.1
  obtain ⟨f, rfl⟩ : ∃ f, n = f + 1 := ⟨n - 1, by omega⟩
  show csdAux (f + 1) (f + 1) = csdAux (digitSum (f + 1)) (digitSum (f + 1))
  have h1 : csdAux (f + 1) (f + 1) =
      if 9 < f + 1 ∧ ¬(f + 1 = 11 ∨ f + 1 = 22 ∨ f + 1 = 33) then
        csdAux f (digitSum (f + 1))
      else f + 1 := rfl
  rw [h1, if_pos h]
  exact csdAux_congr f (digitSum (f + 1)) (digitSum (f + 1))
    (by omega) (Nat.le_refl _)

/-- Loop equation of `calculate_single_digit` when the `while` condition
fails: the current value is returned unchanged. -/
theorem csd_eval_done (n : Nat) (h : ¬(9 < n ∧ ¬(n = 11 ∨ n = 22 ∨ n = 33))) :
    calculate_single_digit n = n := by
  cases n with
  | zero => rfl
  | succ f =>
    show csdAux (f + 1) (f + 1) = f + 1
    have h1 : csdAux (f + 1) (f + 1) =
        if 9 < f + 1 ∧ ¬(f + 1 = 11 ∨ f + 1 = 22 ∨ f + 1 = 33) then
          csdAux f (digitSum (f + 1))
        else f + 1 := rfl
    rw [h1, if_neg h]

theorem all_takeWhile_isDigit : ∀ l : List Char,
    (l.takeWhile isDigitChar).all isDigitChar = true := by
  intro l
  induction l with
  | nil => rfl
  | cons a t ih =>
    by_cases h : isDigitChar a = true
    · simp [List.takeWhile_cons, h, ih]
    · simp [List.takeWhile_cons, h]

theorem parse_takeWhile_some (l : List Char)
    (h : 1 ≤ (l.takeWhile isDigitChar).length) :
    ∃ v : Nat, parseIntDigits (l.takeWhile isDigitChar) = some v := by
  have hne : l.takeWhile isDigitChar ≠ [] := by
    intro hnil
    rw [hnil] at h
    simp at h
  exact ⟨(l.takeWhile isDigitChar).foldl (fun acc c => 10 * acc + digitVal c) 0, by
    unfold parseIntDigits
    rw [if_pos ⟨hne, all_takeWhile_isDigit l⟩]⟩

theorem fmt2_props : ∀ k : Nat, k < 50 → 1 ≤ k →
    (fmt2 k).length = 2 ∧ fmt2 k ≠ "00" := by decide

theorem zero_avoid_bounds (x : Nat) (h : x < 50) :
    1 ≤ zero_avoid x ∧ zero_avoid x ≤ 49 := by
  unfold zero_avoid
  split <;> omega

theorem reduce_exit_shape : ∀ n : Nat,
    calculate_single_digit n ≤ 9 ∨ calculate_single_digit n = 11 ∨
      calculate_single_digit n = 22 ∨ calculate_single_digit n = 33 := by
  intro n
  induction n using Nat.strong_induction_on with
  | _ n ih =>
    by_cases h : 9 < n ∧ ¬(n = 11 ∨ n = 22 ∨ n = 33)
    · rw [csd_eval_step n h]
      exact ih (digitSum n) (digitSum_lt h.1)
    · rw [csd_eval_done n h]
      omega

/-- C1: the spec demands that a well-formed but invalid calendar date (here
month 13) be rejected with an `InvalidCalendarDate` validation failure, and
the unreachable `except ValueError:` reply at app.py lines 419-427 shows the
same intent; the code, however, never constructs a date object, so
`handle_message` computes and returns a full numerology result for
`2024-13-01`. -/
theorem invalid_calendar_date_accepted :
    handle_text ("2024-13-01") ⟨2024, 6, 15⟩ =
      some (Except.ok ⟨4, 7, ["48", "13", "31"]⟩) := rfl

/-- C2 counterexample: for `1899-01-01` (birth year below 1900) the code
returns a numerology result instead of any validation failure. -/
theorem year_1899_accepted :
    handle_text ("1899-01-01") ⟨2024, 6, 15⟩ =
      some (Except.ok ⟨11, 22, ["28", "43", "11"]⟩) := rfl

/-- C2 amended: the code performs no year-range validation at all, so a
birth date whose year is outside [1900, current year], such as
`1899-01-01`, still yields a `NumerologyResult` on every reference date. -/
theorem no_year_range_validation (now : RefDate) :
    ∃ r : NumerologyResult,
      handle_text ("1899-01-01") now = some (Except.ok r) :=
  ⟨compute_result 1899 1 1 now, rfl⟩

/-- C3: for every seed in 0..99 the three raw candidates
`seed mod 50`, `(seed + 15) mod 50` and `(seed + 33) mod 50` have pairwise
absolute differences of at least 10. -/
theorem lucky_candidates_pairwise_gap (seed : Nat) (h : seed < 100) :
    10 ≤ Nat.dist (lucky_candidates seed).1 (lucky_candidates seed).2.1 ∧
    10 ≤ Nat.dist (lucky_candidates seed).1 (lucky_candidates seed).2.2 ∧
    10 ≤ Nat.dist (lucky_candidates seed).2.1 (lucky_candidates seed).2.2 := by
  have key : ∀ s : Nat, s < 100 →
      10 ≤ Nat.dist (lucky_candidates s).1 (lucky_candidates s).2.1 ∧
      10 ≤ Nat.dist (lucky_candidates s).1 (lucky_candidates s).2.2 ∧
      10 ≤ Nat.dist (lucky_candidates s).2.1 (lucky_candidates s).2.2 := by
    decide
  exact key seed h

theorem lucky_candidates_pairwise_gap_witness :
    (20 : Nat) < 100 ∧
    (10 ≤ Nat.dist (lucky_candidates 20).1 (lucky_candidates 20).2.1 ∧
     10 ≤ Nat.dist (lucky_candidates 20).1 (lucky_candidates 20).2.2 ∧
     10 ≤ Nat.dist (lucky_candidates 20).2.1 (lucky_candidates 20).2.2) :=
  ⟨by decide, lucky_candidates_pairwise_gap 20 (by decide)⟩

/-- C4: for birth date 1990-05-20 and reference date 2024-06-15 (UTC+8) the
engine computes LP = 8, PD = 9, seed = 20 and lucky codes
["20", "35", "03"] in that order. -/
theorem worked_example_1990_05_20 :
    calculate_lp 1990 5 20 = 8 ∧
    calculate_pd 5 20 ⟨2024, 6, 15⟩ = 9 ∧
    lucky_seed 8 9 20 15 = 20 ∧
    get_lucky_numbers 8 9 20 15 = ["20", "35", "03"] :=
  ⟨by decide, by decide, by decide, by decide⟩

/-- C5: LP equals `reduce(digitsum(year) + digitsum(month) + digitsum(day))`,
and when that digit-sum total is exactly 11 the master number is retained:
LP = 11, not 2. -/
theorem lp_formula_and_master_retention (y m d : Nat) :
    calculate_lp y m d =
      calculate_single_digit (digitSum y + digitSum m + digitSum d) ∧
    (digitSum y + digitSum m + digitSum d = 11 → calculate_lp y m d = 11) := by
  refine ⟨rfl, fun h => ?_⟩
  show calculate_single_digit (digitSum y + digitSum m + digitSum d) = 11
  rw [h]
  exact csd_eval_done 11 (by decide)

theorem lp_formula_and_master_retention_witness :
    digitSum 2000 + digitSum 3 + digitSum 6 = 11 ∧ calculate_lp 2000 3 6 = 11 :=
  ⟨by decide, (lp_formula_and_master_retention 2000 3 6).2 (by decide)⟩

/-- C6 counterexample: `reduce 0 = 0`, which lies outside
{1..9, 11, 22, 33}, so the claim fails at n = 0 (the spec itself notes that
0 is returned unchanged). -/
theorem reduce_zero_outside_root_set :
    calculate_single_digit 0 = 0 ∧
    calculate_single_digit 0 ∉ [1, 2, 3, 4, 5, 6, 7, 8, 9, 11, 22, 33] :=
  ⟨rfl, by decide⟩

/-- C6 amended: for every positive n, `reduce n` is an element of
{1, 2, 3, 4, 5, 6, 7, 8, 9, 11, 22, 33}; the input 0 (excluded here) is the
single exception and is mapped to 0. -/
theorem reduce_root_set_of_pos :
    ∀ n : Nat, 1 ≤ n →
      calculate_single_digit n ∈ [1, 2, 3, 4, 5, 6, 7, 8, 9, 11, 22, 33] := by
  intro n
  induction n using Nat.strong_induction_on with
  | _ n ih =>
    intro hn
    by_cases h : 9 < n ∧ ¬(n = 11 ∨ n = 22 ∨ n = 33)
    · rw [csd_eval_step n h]
      exact ih (digitSum n) (digitSum_lt h.1) (digitSum_pos n (by omega))
    · rw [csd_eval_done n h]
      simp only [List.mem_cons, List.not_mem_nil, or_false]
      omega

theorem reduce_root_set_of_pos_witness :
    1 ≤ 38 ∧
    calculate_single_digit 38 ∈ [1, 2, 3, 4, 5, 6, 7, 8, 9, 11, 22, 33] :=
  ⟨by decide, reduce_root_set_of_pos 38 (by decide)⟩

/-- C7: every element of the lucky-code list is the two-digit zero-padded
rendering of a value between 1 and 49; in particular no element is "00",
because a candidate equal to 0 is remapped to 1 before formatting. -/
theorem lucky_codes_format (lp pd day nowDay : Nat) (s : String)
    (hs : s ∈ get_lucky_numbers lp pd day nowDay) :
    ∃ k : Nat, 1 ≤ k ∧ k ≤ 49 ∧ s = fmt2 k ∧ s.length = 2 ∧ s ≠ "00" := by
  have hexp : get_lucky_numbers lp pd day nowDay =
      [fmt2 (zero_avoid (lucky_seed lp pd day nowDay % 50)),
       fmt2 (zero_avoid ((lucky_seed lp pd day nowDay + 15) % 50)),
       fmt2 (zero_avoid ((lucky_seed lp pd day nowDay + 33) % 50))] := rfl
  rw [hexp] at hs
  simp only [List.mem_cons, List.not_mem_nil, or_false] at hs
  have key : ∀ x : Nat, x < 50 →
      ∃ k : Nat, 1 ≤ k ∧ k ≤ 49 ∧ fmt2 (zero_avoid x) = fmt2 k ∧
        (fmt2 (zero_avoid x)).length = 2 ∧ fmt2 (zero_avoid x) ≠ "00" := by
    intro x hx
    obtain ⟨hb1, hb2⟩ := zero_avoid_bounds x hx
    obtain ⟨hlen, hne⟩ := fmt2_props (zero_avoid x) (by omega) hb1
    exact ⟨zero_avoid x, hb1, hb2, rfl, hlen, hne⟩
  rcases hs with h | h | h <;>
    (rw [h]; exact key _ (Nat.mod_lt _ (by omega)))

theorem lucky_codes_format_witness :
    ("20" ∈ get_lucky_numbers 8 9 20 15) ∧
    ∃ k : Nat, 1 ≤ k ∧ k ≤ 49 ∧ ("20" : String) = fmt2 k ∧
      ("20" : String).length = 2 ∧ ("20" : String) ≠ "00" :=
  ⟨by decide, lucky_codes_format 8 9 20 15 ("20") (by decide)⟩

/-- C8: the digit reducer is idempotent on its output. -/
theorem reduce_idempotent (n : Nat) :
    calculate_single_digit (calculate_single_digit n) =
      calculate_single_digit n := by
  have h := reduce_exit_shape n
  exact csd_eval_done (calculate_single_digit n) (by omega)

/-- C9: the reduction loop terminates on every input because for n > 9 the
decimal digit sum is strictly smaller than n (this is exactly the measure
that makes the fuel `n` of `calculate_single_digit` sufficient). -/
theorem digit_sum_decreases_for_multidigit (n : Nat) (h : 9 < n) :
    digitSum n < n :=
  digitSum_lt h

theorem digit_sum_decreases_for_multidigit_witness :
    9 < 10 ∧ digitSum 10 < 10 :=
  ⟨by decide, digit_sum_decreases_for_multidigit 10 (by decide)⟩

/-- C10: any text accepted by the date regex consists of three non-empty
all-digit groups, so the three `int(...)` calls succeed and the numerology
computation returns a result; the `except ValueError:` branch of
`handle_message` is unreachable. -/
theorem regex_match_never_value_error (s : String) (g1 g2 g3 : List Char)
    (now : RefDate) (h : matchDate s.toList = some (g1, g2, g3)) :
    ∃ r : NumerologyResult, handle_birthdate g1 g2 g3 now = Except.ok r := by
  simp only [matchDate] at h
  split at h
  · rename_i c1 r2 heq1
    split at h
    · rename_i c2 r4 heq2
      split at h
      · rename_i hcond
        obtain ⟨hl1, _, hl2, _, _, hl3, _, _⟩ := hcond
        simp only [Option.some.injEq, Prod.mk.injEq] at h
        obtain ⟨e1, e2, e3⟩ := h
        subst e1
        subst e2
        subst e3
        obtain ⟨v1, hv1⟩ := parse_takeWhile_some s.toList (by omega)
        obtain ⟨v2, hv2⟩ := parse_takeWhile_some r2 hl2
        obtain ⟨v3, hv3⟩ := parse_takeWhile_some r4 hl3
        refine ⟨compute_result v1 v2 v3 now, ?_⟩
        unfold handle_birthdate
        rw [hv1, hv2, hv3]
      · exact Option.noConfusion h
    · exact Option.noConfusion h
  · exact Option.noConfusion h

theorem regex_match_never_value_error_witness :
    matchDate ("1990-05-20".toList) =
      some (['1', '9', '9', '0'], ['0', '5'], ['2', '0']) ∧
    ∃ r : NumerologyResult,
      handle_birthdate ['1', '9', '9', '0'] ['0', '5'] ['2', '0']
        ⟨2024, 6, 15⟩ = Except.ok r :=
  ⟨by decide,
    regex_match_never_value_error ("1990-05-20") ['1', '9', '9', '0']
      ['0', '5'] ['2', '0'] ⟨2024, 6, 15⟩ (by decide)⟩

end TaicaiBot
